import Mathlib

/-!
Verification of the caching / normalization / logo-resolution core of the
Stocks-and-ETFs broking platform (an Expo + React Native client).

The embedding translates the relevant TypeScript from
`app/(app)/index.tsx`, `app/(app)/watchlist.tsx` and (where the source file
`app/api/alphaVantage.js` is referenced but absent) models the missing
functions from the specification.  JavaScript strings are modelled as Lean
`String`s (lists of characters); JavaScript truthiness on optional string
fields is modelled by `jsOrS`; exceptions of fallible operations are
modelled by `Option` / `Except`.
-/

namespace StocksApp

/-- JavaScript `String.prototype.toUpperCase` restricted to the character-wise
map (ASCII case mapping, as `Char.toUpper`). -/
def upperStr (s : String) : String := ⟨s.data.map Char.toUpper⟩

/-- JavaScript `s.replace(/a/g, b)` for one-character pattern and replacement:
replaces every occurrence of character `a` by character `b`. -/
def replChar (a b : Char) (s : String) : String :=
  ⟨s.data.map (fun c => if c = a then b else c)⟩

/-- JavaScript `s.split(a)[0]`: the part of `s` before the first occurrence of
the character `a` (the whole of `s` when `a` does not occur). -/
def beforeChar (a : Char) (s : String) : String :=
  ⟨s.data.takeWhile (fun c => c ≠ a)⟩

/-- JavaScript `x || d` on an optional string field `x`: `undefined` and the
empty string are falsy and fall through to the default `d`. -/
def jsOrS (x : Option String) (d : String) : String :=
  match x with
  | none => d
  | some s => if s = "" then d else s

/-- Worker for `jsSetDedup`: `seen` holds the elements already emitted. -/
def jsSetDedupAux (seen : List String) : List String → List String
  | [] => []
  | x :: xs =>
      if x ∈ seen then jsSetDedupAux seen xs
      else x :: jsSetDedupAux (x :: seen) xs

/-- JavaScript `Array.from(new Set(l))`: de-duplication keeping the first
occurrence of each element, in order. -/
def jsSetDedup (l : List String) : List String := jsSetDedupAux [] l

/-- The Financial Modeling Prep logo URL template of `index.tsx` line 39:
`https://financialmodelingprep.com/image-stock/$\x7bv\x7d.png`. -/
def logoUrlTemplate (v : String) : String :=
  "https://financialmodelingprep.com/image-stock/" ++ v ++ ".png"

/-- The five-element variant list of `candidateImageUris` (`index.tsx` line 36)
before filtering and de-duplication: `s`, `s` with `.`→`-`, `s` with `-`→`.`,
`s.split(".")[0]`, `s.split("-")[0]`. -/
def rawVariants (s : String) : List String :=
  [s, replChar '.' '-' s, replChar '-' '.' s, beforeChar '.' s, beforeChar '-' s]

/-- `candidateImageUris` of `index.tsx` lines 31–40.  The argument is
`Option String`: `none` models an absent/undefined symbol, and `some ""` is
falsy under the JS guard `if (!symbol) return []`. -/
def candidateImageUris : Option String → List String
  | none => []
  | some sym =>
      if sym = "" then []
      else
        (jsSetDedup ((rawVariants (upperStr sym)).filter (fun v => v ≠ ""))).map
          logoUrlTemplate

/-- The `Stock` interface of `index.tsx` lines 22–28. -/
structure Stock where
  name : String
  price : String
  symbol : String
  image : String
  change : String
deriving Repr, DecidableEq

/-- A raw upstream quote record as consumed by `mapStock` (`index.tsx` lines
146–154): any of the heterogeneous fields may be absent (`none`). -/
structure RawStock where
  name : Option String := none
  ticker : Option String := none
  symbol : Option String := none
  price : Option String := none
  close : Option String := none
  change : Option String := none
deriving Repr, DecidableEq

/-- `mapStock` of `index.tsx` lines 146–154, field for field:
`name: s.name || s.symbol || s.ticker || ""`, `price: s.price || s.close || ""`,
`symbol: s.ticker || s.symbol || s.name || ""`, `image: "placeholder"`,
`change: s.change || ""`. -/
def mapStock (s : RawStock) : Stock :=
  { name := jsOrS s.name (jsOrS s.symbol (jsOrS s.ticker ""))
    price := jsOrS s.price (jsOrS s.close "")
    symbol := jsOrS s.ticker (jsOrS s.symbol (jsOrS s.name ""))
    image := "placeholder"
    change := jsOrS s.change "" }

/-- The image source chosen by the `StockLogo` component: either the local
placeholder asset, or a remote URI read from the candidate list (`none` would
be a JavaScript out-of-bounds `undefined` access). -/
inductive LogoSrc where
  | fallback
  | remote (u : Option String)
deriving Repr, DecidableEq

/-- JavaScript `uri ? [uri] : []` of `index.tsx` line 45 (the empty string is
falsy). -/
def uriSingleton (uri : Option String) : List String :=
  match uri with
  | none => []
  | some u => if u = "" then [] else [u]

/-- The candidate list of `StockLogo` (`index.tsx` line 45):
`(uris && uris.length ? uris : uri ? [uri] : [])`. -/
def logoCandidates (uri : Option String) (uris : Option (List String)) : List String :=
  match uris with
  | some l => if l.length ≠ 0 then l else uriSingleton uri
  | none => uriSingleton uri

/-- The `src` computed by `StockLogo` (`index.tsx` line 49):
`failed || candidates.length === 0 ? fallback :
\x7b uri: candidates[Math.min(idx, candidates.length - 1)] \x7d`. -/
def stockLogoSrc (uri : Option String) (uris : Option (List String))
    (idx : Nat) (failed : Bool) : LogoSrc :=
  if failed = true ∨ (logoCandidates uri uris).length = 0 then LogoSrc.fallback
  else
    LogoSrc.remote
      ((logoCandidates uri uris)[min idx ((logoCandidates uri uris).length - 1)]?)

/-- The `onError` state transition of `StockLogo` (`index.tsx` lines 55–61):
advance `idx` while more candidates remain, otherwise set `failed`. -/
def stockLogoOnError (candidates : List String) (idx : Nat) (failed : Bool) :
    Nat × Bool :=
  if idx < candidates.length - 1 then (idx + 1, failed) else (idx, true)

/-- The candidate-probing loop shared by `updateStockImages` (`index.tsx`
lines 176–181): try each URL in order and stop at the first success.  `loads u`
models `await Image.prefetch(u)` returning `true`; both a `false` result and a
thrown exception (caught by the empty `catch`) continue with the next URL. -/
def prefetchFirst (loads : String → Bool) : List String → Option String
  | [] => none
  | u :: rest => if loads u then some u else prefetchFirst loads rest

/-- The per-stock body of `updateStockImages` (`index.tsx` lines 174–183):
the first candidate that loads becomes the stock's image; if none loads the
stock is returned unchanged. -/
def updateStockImage (loads : String → Bool) (stock : Stock) : Stock :=
  match prefetchFirst loads (candidateImageUris (some stock.symbol)) with
  | some url => { stock with image := url }
  | none => stock

/-- `updateStockImages` of `index.tsx` lines 172–185: a `Promise.all` over the
per-stock resolutions. -/
def updateStockImages (loads : String → Bool) (stocks : List Stock) : List Stock :=
  stocks.map (updateStockImage loads)

/-- The per-item body of `prefetchImages` (`index.tsx` lines 120–131): probe at
most the first three candidates, stopping at the first success; every failure
is swallowed by the empty `catch`. -/
def prefetchItemTries (loads : String → Bool) (symbol : Option String) :
    Option String :=
  prefetchFirst loads ((candidateImageUris symbol).take 3)

/-- One entry of the upstream `bestMatches` array (fields as used by the
search overlay: `"1. symbol"`, `symbol`, `"2. name"`, `name`). -/
structure SearchMatch where
  symbol1 : Option String := none
  symbol : Option String := none
  name2 : Option String := none
  name : Option String := none
deriving Repr, DecidableEq

/-- The upstream search response as inspected by `debouncedSearch`
(`index.tsx` line 96): `bestMatches` is `some l` when the field is present and
an array, `none` when it is absent or not an array. -/
structure SearchResponse where
  bestMatches : Option (List SearchMatch)
deriving Repr, DecidableEq

/-- Modelled from the spec: `searchTicker` lives in `app/api/alphaVantage.js`,
which is not under `src/`.  Spec §4.3: `searchSymbol` "calls the upstream
search endpoint with the literal query string; empty or whitespace-only query
short-circuits to an empty result without a network call".  `net` is the
upstream HTTP call (`Except.error` models `FetchFailed`); the returned `Bool`
records whether the network call was made. -/
def searchTicker (net : String → Except String SearchResponse)
    (query : String) : Except String SearchResponse × Bool :=
  if query.data.all (fun c => c.isWhitespace) then (Except.ok ⟨some []⟩, false)
  else (net query, true)

/-- The search state written by one run of `debouncedSearch`
(`index.tsx` lines 86–106): the results list, the error message, and whether
the upstream network endpoint was hit. -/
structure SearchOutcome where
  results : List SearchMatch
  message : String
  netCalled : Bool
deriving Repr, DecidableEq

/-- `debouncedSearch` of `index.tsx` lines 86–106: the empty query
short-circuits (`!query || query.length < 1`); a response whose `bestMatches`
is not an array yields no results; a thrown fetch error is caught and yields
the "Search failed." message with no results. -/
def debouncedSearch (net : String → Except String SearchResponse)
    (query : String) : SearchOutcome :=
  if query = "" then { results := [], message := "", netCalled := false }
  else
    match searchTicker net query with
    | (Except.ok resp, called) =>
        match resp.bestMatches with
        | some l => { results := l, message := "", netCalled := called }
        | none => { results := [], message := "", netCalled := called }
    | (Except.error _, called) =>
        { results := [], message := "Search failed.", netCalled := called }

/-- The watchlist mapping: group name to its symbols, in insertion order
(a JavaScript object with unique keys). -/
abbrev Groups := List (String × List String)

/-- The single AsyncStorage key of the watchlist (`watchlist.tsx` line 20). -/
def WATCHLIST_KEY : String := "WATCHLIST_GROUPS"

/-- In-memory groups plus the persistent string-keyed store (AsyncStorage). -/
structure WatchState where
  groups : Groups
  store : String → Option String

/-- `JSON.stringify` for the watchlist mapping, as persisted by
`watchlist.tsx` line 40. -/
def stringifyGroups (g : Groups) : String :=
  "\x7b" ++ String.intercalate ","
    (g.map (fun p =>
      "\"" ++ p.1 ++ "\":[" ++
        String.intercalate "," (p.2.map (fun s => "\"" ++ s ++ "\"")) ++ "]")) ++
    "\x7d"

/-- JavaScript `delete updated[group]` on the mapping: remove the entries
keyed by `g` (a JS object has that key at most once). -/
def deleteKey (g : String) : Groups → Groups
  | [] => []
  | p :: ps => if p.1 = g then deleteKey g ps else p :: deleteKey g ps

/-- The confirmed-delete action of `deleteGroup` (`watchlist.tsx` lines
37–43): copy the mapping, `delete updated[group]`, persist the whole updated
mapping under the single key, and install it in memory. -/
def deleteGroup (g : String) (st : WatchState) : WatchState :=
  let updated := deleteKey g st.groups
  { groups := updated
    store := fun k =>
      if k = WATCHLIST_KEY then some (stringifyGroups updated) else st.store k }

/-- `loadGroups` of `watchlist.tsx` lines 17–27: read the persisted text; the
initial state `\x7b\x7d` is kept when the key is absent or the text is empty
(falsy), and a `JSON.parse` exception (modelled by `parse` returning `none`)
is caught, also keeping the initial empty mapping. -/
def loadGroups (parse : String → Option Groups) (stored : Option String) :
    Groups :=
  match stored with
  | none => []
  | some data =>
      if data = "" then []
      else
        match parse data with
        | none => []
        | some g => g

/-- A raw record of the cached top-gainers/losers snapshot as consumed by
`loadDetails` (`watchlist.tsx` lines 88–92). -/
structure RawTicker where
  ticker : Option String := none
  symbol : Option String := none
  name : Option String := none
  price : Option String := none
  close : Option String := none
  last : Option String := none
deriving Repr, DecidableEq

/-- The cached snapshot shape read by `loadDetails`: either list may be
absent (`cached.top_gainers || []`). -/
structure Snapshot where
  top_gainers : Option (List RawTicker) := none
  top_losers : Option (List RawTicker) := none
deriving Repr, DecidableEq

/-- The per-symbol result produced by `loadDetails` (`watchlist.tsx` line
109), extended with a flag recording whether the quick-quote endpoint was
queried. -/
structure DetailResult where
  symbol : String
  image : String
  price : String
  quickCalled : Bool
deriving Repr, DecidableEq

/-- The cached-snapshot price lookup of `loadDetails` (`watchlist.tsx` lines
84–94): find the record whose `(ticker || symbol || name || "")` uppercases to
`upper`; its price is `found.price || found.close || found.last || "--"`;
otherwise the `"--"` fallback stands. -/
def cachedPrice (cached : Option Snapshot) (upper : String) : String :=
  match cached with
  | none => "--"
  | some c =>
      let all := c.top_gainers.getD [] ++ c.top_losers.getD []
      match all.find?
          (fun s => upperStr (jsOrS s.ticker (jsOrS s.symbol (jsOrS s.name ""))) = upper) with
      | some found => jsOrS found.price (jsOrS found.close (jsOrS found.last "--"))
      | none => "--"

/-- The per-symbol body of `loadDetails` (`watchlist.tsx` lines 81–109):
uppercase the symbol, build the logo URL, look the price up in the cached
snapshot, and only if it is still falsy or `"--"` query the quick-quote
endpoint (`quick upper = some q` is a successful formatted quote; `none`
covers a thrown fetch, a non-ok status, or a malformed body, all caught). -/
def loadDetail (cached : Option Snapshot) (quick : String → Option String)
    (sym : String) : DetailResult :=
  let upper := upperStr sym
  let imageUrl := "https://financialmodelingprep.com/image-stock/" ++ upper ++ ".png"
  let p := cachedPrice cached upper
  if p = "" ∨ p = "--" then
    match quick upper with
    | some q => { symbol := sym, image := imageUrl, price := q, quickCalled := true }
    | none => { symbol := sym, image := imageUrl, price := p, quickCalled := true }
  else { symbol := sym, image := imageUrl, price := p, quickCalled := false }

/-- `loadDetails` of `watchlist.tsx` lines 74–112: a `Promise.all` over the
independent per-symbol lookups. -/
def loadDetails (cached : Option Snapshot) (quick : String → Option String)
    (symbols : List String) : List DetailResult :=
  symbols.map (loadDetail cached quick)

/-- A TTL cache entry (spec §3): the cached value and its fetch time. -/
structure CacheEntry (α : Type) where
  value : α
  fetchedAtEpochMillis : Nat
deriving Repr, DecidableEq

/-- Modelled from the spec: `getOrFetch` of the TTL cache lives in
`app/api/alphaVantage.js`, which is not under `src/`.  Spec §4.2: read the
entry; if present and fresh (`now - fetchedAt < ttl`) return its value without
fetching; otherwise run the fetcher, and on success write and return the fresh
value.  "On fetcher failure: if a stale entry exists, return the stale value
(serve-stale-on-error policy) rather than propagating the failure; if no entry
exists at all, propagate the failure to the caller."  The result pairs the
returned value with the entry stored afterwards. -/
def getOrFetch {α : Type} (entry : Option (CacheEntry α)) (now ttl : Nat)
    (fetcher : Except String α) : Except String (α × Option (CacheEntry α)) :=
  match entry with
  | some e =>
      if now - e.fetchedAtEpochMillis < ttl then Except.ok (e.value, some e)
      else
        match fetcher with
        | Except.ok v => Except.ok (v, some ⟨v, now⟩)
        | Except.error _ => Except.ok (e.value, some e)
  | none =>
      match fetcher with
      | Except.ok v => Except.ok (v, some ⟨v, now⟩)
      | Except.error msg => Except.error msg

/-- JavaScript object indexing `groups[g]` on the watchlist mapping: the value
of the (unique) key `g`, or `undefined`. -/
def lookupGroup (g : String) : Groups → Option (List String)
  | [] => none
  | p :: ps => if p.1 = g then some p.2 else lookupGroup g ps

theorem jsOrS_ne_empty (x : Option String) (d : String) (h : d ≠ "") :
    jsOrS x d ≠ "" := by
  unfold jsOrS
  cases x with
  | none => exact h
  | some s =>
      dsimp only
      split
      · exact h
      · assumption

theorem mem_of_mem_jsSetDedupAux (x : String) :
    ∀ (seen l : List String), x ∈ jsSetDedupAux seen l → x ∈ l := by
  intro seen l
  induction l generalizing seen with
  | nil => intro h; simp [jsSetDedupAux] at h
  | cons y ys ih =>
      intro h
      simp only [jsSetDedupAux] at h
      split at h
      · exact List.mem_cons_of_mem _ (ih _ h)
      · rcases List.mem_cons.mp h with h1 | h2
        · exact h1 ▸ List.mem_cons_self _ _
        · exact List.mem_cons_of_mem _ (ih _ h2)

theorem not_mem_seen_of_mem_jsSetDedupAux (x : String) :
    ∀ (seen l : List String), x ∈ jsSetDedupAux seen l → x ∉ seen := by
  intro seen l
  induction l generalizing seen with
  | nil => intro h; simp [jsSetDedupAux] at h
  | cons y ys ih =>
      intro h
      simp only [jsSetDedupAux] at h
      split at h
      · exact ih _ h
      · rename_i hy
        rcases List.mem_cons.mp h with rfl | h2
        · exact hy
        · intro hs
          exact ih _ h2 (List.mem_cons_of_mem _ hs)

theorem jsSetDedupAux_nodup : ∀ (seen l : List String), (jsSetDedupAux seen l).Nodup := by
  intro seen l
  induction l generalizing seen with
  | nil => exact List.nodup_nil
  | cons y ys ih =>
      simp only [jsSetDedupAux]
      split
      · exact ih _
      · refine List.nodup_cons.mpr ⟨?_, ih _⟩
        intro hmem
        exact not_mem_seen_of_mem_jsSetDedupAux y _ _ hmem (List.mem_cons_self _ _)

theorem jsSetDedup_nodup (l : List String) : (jsSetDedup l).Nodup :=
  jsSetDedupAux_nodup [] l

/-- Claim C1: when the fetcher fails and a stored entry exists for the key
(fresh or stale alike), `getOrFetch` returns the stored value and suppresses
the error; when the fetcher fails and no entry has ever been stored for the
key, `getOrFetch` propagates the failure to the caller. -/
theorem getOrFetch_fetcher_failure {α : Type} (e : CacheEntry α)
    (now ttl : Nat) (msg : String) :
    getOrFetch (some e) now ttl (Except.error msg) = Except.ok (e.value, some e) ∧
    getOrFetch (none : Option (CacheEntry α)) now ttl (Except.error msg) =
      Except.error msg := by
  constructor
  · by_cases hf : now - e.fetchedAtEpochMillis < ttl <;> simp [getOrFetch, hf]
  · rfl

/-- Claim C3: `mapStock` is a total Lean function on every raw record; a
record lacking all of `ticker`, `symbol` and `name` normalizes to the empty
symbol, a record lacking `price` and `close` to the empty price, and a record
lacking `change` to the empty change. -/
theorem mapStock_total_defaults (s : RawStock) :
    (s.ticker = none → s.symbol = none → s.name = none → (mapStock s).symbol = "") ∧
    (s.price = none → s.close = none → (mapStock s).price = "") ∧
    (s.change = none → (mapStock s).change = "") := by
  refine ⟨fun h1 h2 h3 => ?_, fun h1 h2 => ?_, fun h1 => ?_⟩ <;>
    simp [mapStock, jsOrS, h1, *]

theorem mapStock_total_defaults_witness :
    (mapStock {}).symbol = "" ∧ (mapStock {}).price = "" ∧
    (mapStock {}).change = "" :=
  ⟨(mapStock_total_defaults {}).1 rfl rfl rfl,
   (mapStock_total_defaults {}).2.1 rfl rfl,
   (mapStock_total_defaults {}).2.2 rfl⟩

/-- Claim C7: loading the watchlist never raises: when the persisted value
under `WATCHLIST_GROUPS` is absent, or is text on which `JSON.parse` fails
(the parse exception is caught), the loaded state is the empty mapping. -/
theorem loadGroups_absent_or_malformed (parse : String → Option Groups)
    (s : String) :
    loadGroups parse none = [] ∧
    (parse s = none → loadGroups parse (some s) = []) := by
  refine ⟨rfl, fun h => ?_⟩
  unfold loadGroups
  by_cases hs : s = "" <;> simp [hs, h]

theorem loadGroups_absent_or_malformed_witness :
    loadGroups (fun _ => none) none = [] ∧
    loadGroups (fun _ => none) (some "oops") = [] :=
  ⟨(loadGroups_absent_or_malformed (fun _ => none) "oops").1,
   (loadGroups_absent_or_malformed (fun _ => none) "oops").2 rfl⟩

/-- Claim C10: an absent, undefined, or empty symbol yields an empty candidate
list; `StockLogo` given an empty candidate list renders the local placeholder;
and for every input the component either renders the placeholder or indexes a
really-present candidate (never a JavaScript out-of-bounds `undefined`). -/
theorem candidateImageUris_empty_logo_safe :
    candidateImageUris none = [] ∧
    candidateImageUris (some "") = [] ∧
    (∀ idx failed, stockLogoSrc none (some []) idx failed = LogoSrc.fallback) ∧
    (∀ idx failed, stockLogoSrc none none idx failed = LogoSrc.fallback) ∧
    (∀ uri uris idx failed,
       stockLogoSrc uri uris idx failed = LogoSrc.fallback ∨
       ∃ u, stockLogoSrc uri uris idx failed = LogoSrc.remote (some u)) := by
  refine ⟨rfl, rfl, ?_, ?_, ?_⟩
  · intro idx failed
    cases failed <;> rfl
  · intro idx failed
    cases failed <;> rfl
  · intro uri uris idx failed
    by_cases h : failed = true ∨ (logoCandidates uri uris).length = 0
    · left
      unfold stockLogoSrc
      exact if_pos h
    · right
      have h2 := h
      push_neg at h2
      obtain ⟨hf, hl⟩ := h2
      have hpos : 0 < (logoCandidates uri uris).length := Nat.pos_of_ne_zero hl
      have hlt : min idx ((logoCandidates uri uris).length - 1) <
          (logoCandidates uri uris).length :=
        lt_of_le_of_lt (Nat.min_le_right _ _) (Nat.sub_lt hpos Nat.one_pos)
      refine ⟨(logoCandidates uri uris).get ⟨_, hlt⟩, ?_⟩
      unfold stockLogoSrc
      rw [if_neg h]
      simp [List.getElem?_eq_getElem hlt, List.get_eq_getElem]

/-- Claim C5: logo resolution attempts the candidates in order and returns the
first that loads; if every candidate fails, or the list is empty, the stock
keeps its placeholder image; a failing candidate never aborts the attempt of
the remaining candidates. -/
theorem prefetchFirst_resolution (loads : String → Bool) (cs : List String) :
    prefetchFirst loads cs = cs.find? loads ∧
    (prefetchFirst loads cs = none ↔ ∀ u ∈ cs, loads u = false) ∧
    (∀ u rest, loads u = false →
       prefetchFirst loads (u :: rest) = prefetchFirst loads rest) ∧
    (∀ stock : Stock,
       prefetchFirst loads (candidateImageUris (some stock.symbol)) = none →
       updateStockImage loads stock = stock) ∧
    (∀ (stock : Stock) (url : String),
       prefetchFirst loads (candidateImageUris (some stock.symbol)) = some url →
       updateStockImage loads stock = { stock with image := url }) := by
  have hfind : ∀ l : List String, prefetchFirst loads l = l.find? loads := by
    intro l
    induction l with
    | nil => rfl
    | cons u rest ih =>
        by_cases hu : loads u <;> simp [prefetchFirst, List.find?, hu, ih]
  refine ⟨hfind cs, ?_, ?_, ?_, ?_⟩
  · rw [hfind, List.find?_eq_none]
    simp
  · intro u rest hu
    simp [prefetchFirst, hu]
  · intro stock h
    unfold updateStockImage
    rw [h]
  · intro stock url h
    unfold updateStockImage
    rw [h]

theorem prefetchFirst_resolution_witness :
    prefetchFirst (fun _ => false) ["a", "b"] = prefetchFirst (fun _ => false) ["b"] ∧
    prefetchFirst (fun _ => false) ["b"] = none ∧
    updateStockImage (fun _ => false) ⟨"N", "1", "SYM", "placeholder", ""⟩ =
      ⟨"N", "1", "SYM", "placeholder", ""⟩ :=
  ⟨(prefetchFirst_resolution (fun _ => false) ["a", "b"]).2.2.1 "a" ["b"] rfl,
   (prefetchFirst_resolution (fun _ => false) ["b"]).2.1.mpr (by decide),
   (prefetchFirst_resolution (fun _ => false) []).2.2.2.1
     ⟨"N", "1", "SYM", "placeholder", ""⟩ (by decide)⟩

theorem lookupGroup_deleteKey_self (g : String) (l : Groups) :
    lookupGroup g (deleteKey g l) = none := by
  induction l with
  | nil => rfl
  | cons p ps ih =>
      by_cases h : p.1 = g
      · rw [deleteKey, if_pos h]
        exact ih
      · rw [deleteKey, if_neg h, lookupGroup, if_neg h]
        exact ih

theorem lookupGroup_deleteKey_other (g g2 : String) (hne : g2 ≠ g) (l : Groups) :
    lookupGroup g2 (deleteKey g l) = lookupGroup g2 l := by
  induction l with
  | nil => rfl
  | cons p ps ih =>
      by_cases h : p.1 = g
      · have hp2 : p.1 ≠ g2 := fun hh => hne (by rw [← hh]; exact h)
        calc lookupGroup g2 (deleteKey g (p :: ps))
            = lookupGroup g2 (deleteKey g ps) := by rw [deleteKey, if_pos h]
          _ = lookupGroup g2 ps := ih
          _ = lookupGroup g2 (p :: ps) := by rw [lookupGroup, if_neg hp2]
      · rw [deleteKey, if_neg h]
        by_cases h2 : p.1 = g2
        · rw [lookupGroup, if_pos h2, lookupGroup, if_pos h2]
        · rw [lookupGroup, if_neg h2, lookupGroup, if_neg h2]
          exact ih

theorem deleteKey_eq_self_of_lookup_none (g : String) (l : Groups)
    (h : lookupGroup g l = none) : deleteKey g l = l := by
  induction l with
  | nil => rfl
  | cons p ps ih =>
      rw [lookupGroup] at h
      by_cases hp : p.1 = g
      · rw [if_pos hp] at h
        exact Option.noConfusion h
      · rw [if_neg hp] at h
        rw [deleteKey, if_neg hp, ih h]

/-- Claim C6: `deleteGroup` removes exactly the named group with its whole
membership in one step and persists the whole updated mapping under the single
key; every other group's membership and every other store key are unchanged;
deleting a non-existent group leaves the mapping unchanged and raises no
error. -/
theorem deleteGroup_frame (g : String) (st : WatchState) :
    lookupGroup g (deleteGroup g st).groups = none ∧
    (∀ g2, g2 ≠ g →
       lookupGroup g2 (deleteGroup g st).groups = lookupGroup g2 st.groups) ∧
    (deleteGroup g st).store WATCHLIST_KEY =
      some (stringifyGroups (deleteGroup g st).groups) ∧
    (∀ k, k ≠ WATCHLIST_KEY → (deleteGroup g st).store k = st.store k) ∧
    (lookupGroup g st.groups = none → (deleteGroup g st).groups = st.groups) := by
  refine ⟨lookupGroup_deleteKey_self g st.groups,
    fun g2 h => lookupGroup_deleteKey_other g g2 h st.groups, ?_, fun k hk => ?_,
    fun h => deleteKey_eq_self_of_lookup_none g st.groups h⟩
  · simp [deleteGroup]
  · simp [deleteGroup, hk]

theorem deleteGroup_frame_witness :
    lookupGroup "Fun"
        (deleteGroup "Tech"
          ⟨[("Tech", ["AAPL"]), ("Fun", ["TSLA"])], fun _ => none⟩).groups =
      lookupGroup "Fun"
        (⟨[("Tech", ["AAPL"]), ("Fun", ["TSLA"])], fun _ => none⟩ : WatchState).groups ∧
    (deleteGroup "Tech"
        ⟨[("Tech", ["AAPL"]), ("Fun", ["TSLA"])], fun _ => none⟩).store "other" =
      (⟨[("Tech", ["AAPL"]), ("Fun", ["TSLA"])], fun _ => none⟩ : WatchState).store "other" ∧
    (deleteGroup "Gone" ⟨[("Tech", ["AAPL"])], fun _ => none⟩).groups =
      (⟨[("Tech", ["AAPL"])], fun _ => none⟩ : WatchState).groups :=
  ⟨(deleteGroup_frame "Tech"
      ⟨[("Tech", ["AAPL"]), ("Fun", ["TSLA"])], fun _ => none⟩).2.1 "Fun" (by decide),
   (deleteGroup_frame "Tech"
      ⟨[("Tech", ["AAPL"]), ("Fun", ["TSLA"])], fun _ => none⟩).2.2.2.1 "other" (by decide),
   (deleteGroup_frame "Gone" ⟨[("Tech", ["AAPL"])], fun _ => none⟩).2.2.2.2 (by decide)⟩

theorem cachedPrice_ne_empty (cached : Option Snapshot) (upper : String) :
    cachedPrice cached upper ≠ "" := by
  cases cached with
  | none => simp [cachedPrice]
  | some c =>
      simp only [cachedPrice]
      split
      · rename_i found heq
        exact jsOrS_ne_empty found.price _ (jsOrS_ne_empty found.close _
          (jsOrS_ne_empty found.last "--" (by decide)))
      · simp

/-- Claim C9: the no-credential quick-quote endpoint is queried exactly when
the lookup of the uppercase-normalized symbol in the cached snapshot leaves
the price at the `"--"` fallback; when the cached lookup yields a price, no
quick-quote request is made and that price is used. -/
theorem loadDetail_quick_lastResort (cached : Option Snapshot)
    (quick : String → Option String) (sym : String) :
    ((loadDetail cached quick sym).quickCalled = true ↔
       cachedPrice cached (upperStr sym) = "--") ∧
    ((loadDetail cached quick sym).quickCalled = false →
       (loadDetail cached quick sym).price = cachedPrice cached (upperStr sym)) := by
  have hne := cachedPrice_ne_empty cached (upperStr sym)
  by_cases h : cachedPrice cached (upperStr sym) = "--"
  · have hcall : (loadDetail cached quick sym).quickCalled = true := by
      simp only [loadDetail]
      rw [if_pos (Or.inr h)]
      cases quick (upperStr sym) <;> rfl
    refine ⟨⟨fun _ => h, fun _ => hcall⟩, fun hfalse => ?_⟩
    rw [hcall] at hfalse
    cases hfalse
  · have hcond : ¬(cachedPrice cached (upperStr sym) = "" ∨
        cachedPrice cached (upperStr sym) = "--") := by
      rintro (hc | hc)
      · exact hne hc
      · exact h hc
    have hcall : (loadDetail cached quick sym).quickCalled = false := by
      simp only [loadDetail]
      rw [if_neg hcond]
    have hprice : (loadDetail cached quick sym).price =
        cachedPrice cached (upperStr sym) := by
      simp only [loadDetail]
      rw [if_neg hcond]
    refine ⟨⟨fun ht => ?_, fun hc => absurd hc h⟩, fun _ => hprice⟩
    rw [hcall] at ht
    cases ht

theorem loadDetail_quick_lastResort_witness :
    (loadDetail none (fun _ => none) "AAPL").quickCalled = true ∧
    (loadDetail (some ⟨some [⟨some "AAPL", none, none, some "196", none, none⟩], none⟩)
        (fun _ => none) "aapl").price =
      cachedPrice (some ⟨some [⟨some "AAPL", none, none, some "196", none, none⟩], none⟩)
        (upperStr "aapl") :=
  ⟨(loadDetail_quick_lastResort none (fun _ => none) "AAPL").1.mpr (by decide),
   (loadDetail_quick_lastResort
      (some ⟨some [⟨some "AAPL", none, none, some "196", none, none⟩], none⟩)
      (fun _ => none) "aapl").2 (by decide)⟩

/-- Claim C8: the concurrently issued per-symbol batches settle with exactly
one result per member; each member's result is that of its own independent
lookup, so one member's failure cannot fail or cancel another; a member whose
cached lookup and quick-quote both fail degrades to the `"--"` price fallback
rather than propagating an error. -/
theorem loadDetails_batch_isolation (cached : Option Snapshot)
    (quick : String → Option String) (symbols : List String)
    (loads : String → Bool) :
    (loadDetails cached quick symbols).length = symbols.length ∧
    (∀ i : Nat, (loadDetails cached quick symbols)[i]? =
       (symbols[i]?).map (loadDetail cached quick)) ∧
    (∀ sym, cachedPrice cached (upperStr sym) = "--" →
       quick (upperStr sym) = none →
       (loadDetail cached quick sym).price = "--") ∧
    (∀ items : List (Option String),
       (items.map (prefetchItemTries loads)).length = items.length) := by
  refine ⟨List.length_map _ _, fun i => ?_, fun sym h1 h2 => ?_,
    fun items => List.length_map _ _⟩
  · simp [loadDetails]
  · simp only [loadDetail]
    rw [if_pos (Or.inr h1), h2]
    simpa using h1

theorem loadDetails_batch_isolation_witness :
    (loadDetail none (fun _ => none) "TSLA").price = "--" :=
  (loadDetails_batch_isolation none (fun _ => none) [] (fun _ => false)).2.2.1
    "TSLA" (by decide) rfl

/-- Claim C2: an empty or whitespace-only query yields an empty search result
without the upstream network endpoint being hit, and a response whose match
list is absent or not a list yields the empty result sequence. -/
theorem debouncedSearch_emptyQuery_malformed
    (net : String → Except String SearchResponse) (q : String) :
    (q.data.all (fun c => c.isWhitespace) = true →
       (debouncedSearch net q).results = [] ∧
       (debouncedSearch net q).netCalled = false) ∧
    (∀ resp, net q = Except.ok resp → resp.bestMatches = none →
       (debouncedSearch net q).results = []) := by
  constructor
  · intro hws
    by_cases hq : q = ""
    · subst hq
      exact ⟨rfl, rfl⟩
    · have hst : searchTicker net q = (Except.ok ⟨some []⟩, false) := by
        unfold searchTicker
        rw [if_pos hws]
      unfold debouncedSearch
      rw [if_neg hq, hst]
      exact ⟨rfl, rfl⟩
  · intro resp hnet hbm
    by_cases hq : q = ""
    · subst hq
      rfl
    · obtain ⟨bm⟩ := resp
      dsimp only at hbm
      subst hbm
      by_cases hws : q.data.all (fun c => c.isWhitespace)
      · have hst : searchTicker net q = (Except.ok ⟨some []⟩, false) := by
          unfold searchTicker
          rw [if_pos hws]
        unfold debouncedSearch
        rw [if_neg hq, hst]
      · have hst : searchTicker net q = (net q, true) := by
          unfold searchTicker
          rw [if_neg hws]
        unfold debouncedSearch
        rw [if_neg hq, hst, hnet]

theorem debouncedSearch_emptyQuery_malformed_witness :
    (debouncedSearch (fun _ => Except.error "down") "   ").results = [] ∧
    (debouncedSearch (fun _ => Except.error "down") "   ").netCalled = false ∧
    (debouncedSearch (fun _ => Except.ok ⟨none⟩) "IBM").results = [] :=
  ⟨((debouncedSearch_emptyQuery_malformed (fun _ => Except.error "down") "   ").1
      (by decide)).1,
   ((debouncedSearch_emptyQuery_malformed (fun _ => Except.error "down") "   ").1
      (by decide)).2,
   (debouncedSearch_emptyQuery_malformed (fun _ => Except.ok ⟨none⟩) "IBM").2
     ⟨none⟩ rfl rfl⟩

theorem logoUrlTemplate_injective : Function.Injective logoUrlTemplate := by
  intro v w h
  have hd : "https://financialmodelingprep.com/image-stock/".data ++
      (v.data ++ ".png".data) =
      "https://financialmodelingprep.com/image-stock/".data ++
      (w.data ++ ".png".data) := by
    have hq := congrArg String.data h
    simpa [logoUrlTemplate, String.data_append, List.append_assoc] using hq
  exact String.ext (List.append_cancel_right (List.append_cancel_left hd))

/-- Claim C4 is false as stated, at the symbol `"A.B-C"`: the returned
sequence contains the URL of the variant `"A.B"` (the part before the first
`'-'`), which is none of the four claimed variants (the symbol, `.`→`-`,
`-`→`.`, and the prefix `"A"` before any `'.'` or `'-'`), and the last element
of the sequence is not the URL of that prefix `"A"`. -/
theorem candidateImageUris_counterexample :
    logoUrlTemplate "A.B" ∈ candidateImageUris (some "A.B-C") ∧
    ¬(logoUrlTemplate "A.B" ∈ [logoUrlTemplate "A.B-C", logoUrlTemplate "A-B-C",
        logoUrlTemplate "A.B.C", logoUrlTemplate "A"]) ∧
    ¬((candidateImageUris (some "A.B-C")).getLast? = some (logoUrlTemplate "A")) := by
  decide

/-- Claim C4 (amended): for every non-empty symbol, `candidateUris` returns a
first-occurrence de-duplicated sequence of logo URLs built from the five
uppercased variants — the symbol itself, `'.'` replaced by `'-'`, `'-'`
replaced by `'.'`, the part before the first `'.'`, and the part before the
first `'-'` — in a deterministic order (two calls on the same input return
the same sequence); `candidateUris("BRK.B")` includes the `'.'`-preserved
variant, the `'-'`-substituted variant, and the prefix `BRK`, with the prefix
last.  (For symbols containing both `'.'` and `'-'` the prefix before the
first separator need not be last.) -/
theorem candidateImageUris_amended (sym : String) (h : sym ≠ "") :
    (candidateImageUris (some sym)).Nodup ∧
    (∀ u ∈ candidateImageUris (some sym),
       ∃ v ∈ rawVariants (upperStr sym), v ≠ "" ∧ u = logoUrlTemplate v) ∧
    candidateImageUris (some sym) = candidateImageUris (some sym) ∧
    logoUrlTemplate "BRK.B" ∈ candidateImageUris (some "BRK.B") ∧
    logoUrlTemplate "BRK-B" ∈ candidateImageUris (some "BRK.B") ∧
    logoUrlTemplate "BRK" ∈ candidateImageUris (some "BRK.B") ∧
    (candidateImageUris (some "BRK.B")).getLast? = some (logoUrlTemplate "BRK") := by
  refine ⟨?_, ?_, rfl, by decide, by decide, by decide, by decide⟩
  · simp only [candidateImageUris]
    rw [if_neg h]
    exact (jsSetDedup_nodup _).map logoUrlTemplate_injective
  · intro u hu
    simp only [candidateImageUris] at hu
    rw [if_neg h] at hu
    obtain ⟨v, hv, rfl⟩ := List.mem_map.mp hu
    have hv2 := mem_of_mem_jsSetDedupAux v [] _ hv
    have hv3 := List.mem_filter.mp hv2
    refine ⟨v, hv3.1, ?_, rfl⟩
    simpa using hv3.2

theorem candidateImageUris_amended_witness :
    (candidateImageUris (some "BRK.B")).Nodup ∧
    (candidateImageUris (some "BRK.B")).getLast? = some (logoUrlTemplate "BRK") :=
  ⟨(candidateImageUris_amended "BRK.B" (by decide)).1,
   (candidateImageUris_amended "BRK.B" (by decide)).2.2.2.2.2.2⟩

end StocksApp
